import Mathlib

/-!
# Shallow embedding of the nest_tutorial backend services

This file embeds the three TypeORM-backed NestJS services of the repository
(`users.service.ts`, `categories.service.ts`, `products.service.ts`) together
with their entity shapes and DTOs, and proves the frozen claims about them.

Modelling conventions:
* A relational row is a Lean structure; the store is three lists of rows plus
  the auto-increment counters of the primary-key columns.
* `Repository.findOne { where }` is `List.find?` with the same predicate;
  `Repository.save` of a row that already has an id replaces the row with that
  id (`replaceById`); `save` of a fresh row appends it and bumps the counter.
  `save` refreshes `updatedAt` (the `@UpdateDateColumn`), so every mutating
  operation takes the save timestamp `now` as an argument.
* A thrown `NotFoundException` / `ConflictException` / `BadRequestException`
  is an `Except.error` carrying the exception's message string, built exactly
  as in the source.  Every mutating service method returns the pair of its
  outcome and the resulting store; a throw happens before any save, so the
  error branches return the input store unchanged.
* Optional DTO fields are `Option`; a JavaScript truthiness test on a string
  field (`if (dto.email)`) is `≠ ""` on the present value, and on a number
  field (`if (dto.categoryId)`) is `≠ 0`, matching JS semantics exactly.
* The `Product.category` `@ManyToOne` relation is stored as the foreign-key
  column `categoryId`; the eager-loaded object is recovered by looking the id
  up in the store.  `Category.products` (`@OneToMany`) is the list of product
  rows whose foreign key is the category's id, with no filter — the source
  `relations: ['products']` load applies none.
-/

namespace NestTutorial

/-- `users` table row (`user.entity.ts`): id, unique email, bcrypt-hashed
password, nombre, apellido, `is_active` soft-delete flag, timestamps. -/
structure User where
  id : Nat
  email : String
  password : String
  nombre : String
  apellido : String
  isActive : Bool
  createdAt : Nat
  updatedAt : Nat
deriving Repr, DecidableEq

/-- `categories` table row (`category.entity.ts`): id, unique non-null nombre,
nullable descripcion, `is_active` flag, timestamps.  The `products` relation is
not a column; it is recovered from the store. -/
structure Category where
  id : Nat
  nombre : String
  descripcion : Option String
  isActive : Bool
  createdAt : Nat
  updatedAt : Nat
deriving Repr, DecidableEq

/-- `products` table row (`product.entity.ts`): id, nombre, nullable
descripcion, precio (decimal 10,2 — modelled in cents, no claim computes with
it), stock, nullable `image_url`, `is_active` flag, `category_id` foreign key,
timestamps. -/
structure Product where
  id : Nat
  nombre : String
  descripcion : Option String
  precio : Nat
  stock : Nat
  imageUrl : Option String
  isActive : Bool
  categoryId : Nat
  createdAt : Nat
  updatedAt : Nat
deriving Repr, DecidableEq

/-- The three exception classes the services throw, with their messages:
`NotFoundException` (404), `ConflictException` (409),
`BadRequestException` (400). -/
inductive ServiceError
  | notFound (msg : String)
  | conflict (msg : String)
  | badRequest (msg : String)
deriving Repr, DecidableEq

/-- The relational store: one list of rows per table plus each table's
auto-increment counter (`@PrimaryGeneratedColumn`). -/
structure Store where
  users : List User
  categories : List Category
  products : List Product
  nextUserId : Nat
  nextCategoryId : Nat
  nextProductId : Nat
deriving Repr, DecidableEq

/-- The empty database: no rows, auto-increment counters at 1. -/
def emptyStore : Store := ⟨[], [], [], 1, 1, 1⟩

/-- `create-user.dto.ts`: all four fields required. -/
structure CreateUserDto where
  email : String
  password : String
  nombre : String
  apellido : String
deriving Repr, DecidableEq

/-- `update-user.dto.ts` = `PartialType(CreateUserDto)`: every field
optional, `none` meaning absent from the PATCH payload. -/
structure UpdateUserDto where
  email : Option String := none
  password : Option String := none
  nombre : Option String := none
  apellido : Option String := none
deriving Repr, DecidableEq

/-- `create-category.dto.ts`: nombre required, descripcion optional. -/
structure CreateCategoryDto where
  nombre : String
  descripcion : Option String := none
deriving Repr, DecidableEq

/-- `update-category.dto.ts` = `PartialType(CreateCategoryDto)`. -/
structure UpdateCategoryDto where
  nombre : Option String := none
  descripcion : Option String := none
deriving Repr, DecidableEq

/-- `create-product.dto.ts`: nombre, precio, stock, categoryId required;
descripcion, imageUrl optional. -/
structure CreateProductDto where
  nombre : String
  descripcion : Option String := none
  precio : Nat
  stock : Nat
  imageUrl : Option String := none
  categoryId : Nat
deriving Repr, DecidableEq

/-- `update-product.dto.ts` = `PartialType(CreateProductDto)`. -/
structure UpdateProductDto where
  nombre : Option String := none
  descripcion : Option String := none
  precio : Option Nat := none
  stock : Option Nat := none
  imageUrl : Option String := none
  categoryId : Option Nat := none
deriving Repr, DecidableEq

/-- Modelled from the spec: credential hashing (`bcrypt.hash(plain, 10)`) is
an external collaborator, not code of this repository; the spec says the
password is "stored as opaque hashed bytes — never plaintext" and that a hash
carries the bcrypt format marker.  Modelled as prefixing that marker, which
makes every hash distinct from every plaintext. -/
def bcryptHash (plain : String) : String := "$2b$10$" ++ plain

/-- `Object.assign` merge of one optional payload field onto a nullable
column: a field present in the payload overwrites, an absent one is left
untouched. -/
def mergeOpt (new : Option α) (old : Option α) : Option α :=
  match new with
  | some v => some v
  | none => old

/-- `save` of a row that already has a primary key: replace the row with that
id. -/
def replaceById (idOf : α → Nat) (l : List α) (row : α) : List α :=
  l.map (fun x => if idOf x == idOf row then row else x)

/-! ## UsersService (`users.service.ts`) -/

/-- `UsersService.findOne(id)`: `findOne({ where: { id, isActive: true } })`,
404 if absent. -/
def usersFindOne (s : Store) (id : Nat) : Except ServiceError User :=
  match s.users.find? (fun u => u.id == id && u.isActive) with
  | some user => .ok user
  | none => .error (.notFound ("Usuario con ID " ++ toString id ++ " no encontrado"))

/-- `UsersService.findAll()`: all rows with `isActive: true` (the source also
projects the password column away with `select`; no claim concerns the
projection, so rows are returned whole). -/
def usersFindAll (s : Store) : List User :=
  s.users.filter (fun u => u.isActive)

/-- `UsersService.create(dto)`: duplicate-email check (`findOne({ where:
{ email } })`, with no `isActive` filter) → 409 if found; otherwise hash the
password and save a fresh row (`isActive` defaults to `true`, timestamps are
server-set). -/
def usersCreate (s : Store) (dto : CreateUserDto) (now : Nat) :
    Except ServiceError User × Store :=
  match s.users.find? (fun u => u.email == dto.email) with
  | some _ => (.error (.conflict "El correo ya está registrado"), s)
  | none =>
    let newUser : User :=
      { id := s.nextUserId, email := dto.email,
        password := bcryptHash dto.password,
        nombre := dto.nombre, apellido := dto.apellido,
        isActive := true, createdAt := now, updatedAt := now }
    (.ok newUser,
     { s with users := s.users ++ [newUser], nextUserId := s.nextUserId + 1 })

/-- `UsersService.update(id, dto)`: fetch via `findOne` (active only) → if the
payload has a truthy email differing from the current one, duplicate-check it
(no `isActive` filter) → 409 on hit; else hash the password if truthy, merge
the present fields (`Object.assign`) and save. -/
def usersUpdate (s : Store) (id : Nat) (dto : UpdateUserDto) (now : Nat) :
    Except ServiceError User × Store :=
  match usersFindOne s id with
  | .error e => (.error e, s)
  | .ok user =>
    let dup : Bool :=
      match dto.email with
      | some newEmail =>
        newEmail != "" && newEmail != user.email &&
          (s.users.find? (fun u => u.email == newEmail)).isSome
      | none => false
    if dup then (.error (.conflict "El correo ya está registrado"), s)
    else
      let hashedPassword : String :=
        match dto.password with
        | some pw => if pw != "" then bcryptHash pw else pw
        | none => user.password
      let updated : User :=
        { user with
          email := dto.email.getD user.email,
          password := hashedPassword,
          nombre := dto.nombre.getD user.nombre,
          apellido := dto.apellido.getD user.apellido,
          updatedAt := now }
      (.ok updated, { s with users := replaceById User.id s.users updated })

/-- The number of duplicate-email queries `UsersService.update` executes on a
given call: one exactly when the payload carries a truthy email differing from
the current value (mirrors the source's control flow around the inner
`findOne({ where: { email } })`). -/
def usersUpdateDupChecks (s : Store) (id : Nat) (dto : UpdateUserDto) : Nat :=
  match usersFindOne s id with
  | .error _ => 0
  | .ok user =>
    match dto.email with
    | some newEmail => if newEmail != "" && newEmail != user.email then 1 else 0
    | none => 0

/-- `UsersService.remove(id)`: fetch via `findOne` (active only), set
`isActive := false`, save. -/
def usersRemove (s : Store) (id : Nat) (now : Nat) :
    Except ServiceError Unit × Store :=
  match usersFindOne s id with
  | .error e => (.error e, s)
  | .ok user =>
    let updated : User := { user with isActive := false, updatedAt := now }
    (.ok (), { s with users := replaceById User.id s.users updated })

/-! ## CategoriesService (`categories.service.ts`) -/

/-- The `relations: ['products']` load of a Category's `@OneToMany` children:
every product row whose foreign key is this category's id, active or not. -/
def categoryProducts (s : Store) (c : Category) : List Product :=
  s.products.filter (fun p => p.categoryId == c.id)

/-- `CategoriesService.create(dto)`: duplicate-nombre check (`findOne({ where:
{ nombre } })`, no `isActive` filter) → 409 if found; otherwise save a fresh
row. -/
def categoriesCreate (s : Store) (dto : CreateCategoryDto) (now : Nat) :
    Except ServiceError Category × Store :=
  match s.categories.find? (fun c => c.nombre == dto.nombre) with
  | some _ => (.error (.conflict "Ya existe una categoría con ese nombre"), s)
  | none =>
    let category : Category :=
      { id := s.nextCategoryId, nombre := dto.nombre,
        descripcion := dto.descripcion,
        isActive := true, createdAt := now, updatedAt := now }
    (.ok category,
     { s with categories := s.categories ++ [category],
              nextCategoryId := s.nextCategoryId + 1 })

/-- `CategoriesService.findAll()`: rows with `isActive: true`, each with its
`products` relation loaded. -/
def categoriesFindAll (s : Store) : List (Category × List Product) :=
  (s.categories.filter (fun c => c.isActive)).map
    (fun c => (c, categoryProducts s c))

/-- `CategoriesService.findOne(id)`: `findOne({ where: { id, isActive: true },
relations: ['products'] })`, 404 if absent. -/
def categoriesFindOne (s : Store) (id : Nat) :
    Except ServiceError (Category × List Product) :=
  match s.categories.find? (fun c => c.id == id && c.isActive) with
  | some c => .ok (c, categoryProducts s c)
  | none =>
    .error (.notFound ("Categoría con ID " ++ toString id ++ " no encontrada"))

/-- `CategoriesService.update(id, dto)`: fetch via `findOne` (active only) →
if the payload has a truthy nombre differing from the current one,
duplicate-check it (no `isActive` filter) → 409 on hit; else merge the present
fields and save. -/
def categoriesUpdate (s : Store) (id : Nat) (dto : UpdateCategoryDto) (now : Nat) :
    Except ServiceError Category × Store :=
  match categoriesFindOne s id with
  | .error e => (.error e, s)
  | .ok (category, _) =>
    let dup : Bool :=
      match dto.nombre with
      | some newName =>
        newName != "" && newName != category.nombre &&
          (s.categories.find? (fun c => c.nombre == newName)).isSome
      | none => false
    if dup then (.error (.conflict "Ya existe una categoria con ese nombre"), s)
    else
      let updated : Category :=
        { category with
          nombre := dto.nombre.getD category.nombre,
          descripcion := mergeOpt dto.descripcion category.descripcion,
          updatedAt := now }
      (.ok updated,
       { s with categories := replaceById Category.id s.categories updated })

/-- The number of duplicate-nombre queries `CategoriesService.update` executes
on a given call (mirrors the source's control flow around the inner
`findOne({ where: { nombre } })`). -/
def categoriesUpdateDupChecks (s : Store) (id : Nat) (dto : UpdateCategoryDto) : Nat :=
  match categoriesFindOne s id with
  | .error _ => 0
  | .ok (category, _) =>
    match dto.nombre with
    | some newName => if newName != "" && newName != category.nombre then 1 else 0
    | none => 0

/-- `CategoriesService.remove(id)`: `findOne({ where: { id }, relations:
['products'] })` — note: no `isActive` filter — 404 if absent; 400 naming the
count if the category has active child products; otherwise set
`isActive := false` and save. -/
def categoriesRemove (s : Store) (id : Nat) (now : Nat) :
    Except ServiceError Unit × Store :=
  match s.categories.find? (fun c => c.id == id) with
  | none =>
    (.error (.notFound ("Categoría con ID " ++ toString id ++ " no encontrada")), s)
  | some category =>
    let activeProducts := (categoryProducts s category).filter (fun p => p.isActive)
    if activeProducts.length > 0 then
      (.error (.badRequest
        ("No se puede eliminar la categoría porque tiene " ++
          toString activeProducts.length ++ " producto(s) activo(s) asociado(s)")), s)
    else
      let updated : Category := { category with isActive := false, updatedAt := now }
      (.ok (),
       { s with categories := replaceById Category.id s.categories updated })

/-! ## ProductsService (`products.service.ts`) -/

/-- `ProductsService.findOne(id)`: `findOne({ where: { id, isActive: true } })`,
404 if absent. -/
def productsFindOne (s : Store) (id : Nat) : Except ServiceError Product :=
  match s.products.find? (fun p => p.id == id && p.isActive) with
  | some product => .ok product
  | none => .error (.notFound ("Producto con ID " ++ toString id ++ " no encontrado"))

/-- `ProductsService.findAll()`: rows with `isActive: true`. -/
def productsFindAll (s : Store) : List Product :=
  s.products.filter (fun p => p.isActive)

/-- `ProductsService.findByCategory(categoryId)`: active products whose
category relation has the given id; no existence check on the id. -/
def productsFindByCategory (s : Store) (categoryId : Nat) : List Product :=
  s.products.filter (fun p => p.categoryId == categoryId && p.isActive)

/-- `ProductsService.create(dto)`: look the referenced category up with
`findOne({ where: { id: dto.categoryId, isActive: true } })` → 404 if absent
or inactive; otherwise save a fresh row whose `category` relation is the found
category (so its foreign key is that category's id).  The source returns the
saved product carrying the eager category object, so the result is the pair. -/
def productsCreate (s : Store) (dto : CreateProductDto) (now : Nat) :
    Except ServiceError (Product × Category) × Store :=
  match s.categories.find? (fun c => c.id == dto.categoryId && c.isActive) with
  | none =>
    (.error (.notFound
      ("Categoría con ID " ++ toString dto.categoryId ++ " no encontrada")), s)
  | some category =>
    let product : Product :=
      { id := s.nextProductId, nombre := dto.nombre,
        descripcion := dto.descripcion, precio := dto.precio,
        stock := dto.stock, imageUrl := dto.imageUrl,
        isActive := true, categoryId := category.id,
        createdAt := now, updatedAt := now }
    (.ok (product, category),
     { s with products := s.products ++ [product],
              nextProductId := s.nextProductId + 1 })

/-- `ProductsService.update(id, dto)`: fetch via `findOne` (active only); if
the payload carries a truthy `categoryId`, revalidate it against an existing
active category (404 on failure) and reassign the relation while merging the
other present fields; otherwise merge the present fields with the relation
untouched (a falsy or absent `categoryId` never reaches the `category_id`
column: the source strips it in the truthy branch and `Object.assign` of a
non-column property is ignored by `save` in the other).  Then save. -/
def productsUpdate (s : Store) (id : Nat) (dto : UpdateProductDto) (now : Nat) :
    Except ServiceError Product × Store :=
  match productsFindOne s id with
  | .error e => (.error e, s)
  | .ok product =>
    if dto.categoryId.getD 0 != 0 then
      match s.categories.find? (fun c => c.id == dto.categoryId.getD 0 && c.isActive) with
      | none =>
        (.error (.notFound
          ("Categoría con ID " ++ toString (dto.categoryId.getD 0) ++ " no encontrada")), s)
      | some category =>
        let updated : Product :=
          { product with
            nombre := dto.nombre.getD product.nombre,
            descripcion := mergeOpt dto.descripcion product.descripcion,
            precio := dto.precio.getD product.precio,
            stock := dto.stock.getD product.stock,
            imageUrl := mergeOpt dto.imageUrl product.imageUrl,
            categoryId := category.id,
            updatedAt := now }
        (.ok updated,
         { s with products := replaceById Product.id s.products updated })
    else
      let updated : Product :=
        { product with
          nombre := dto.nombre.getD product.nombre,
          descripcion := mergeOpt dto.descripcion product.descripcion,
          precio := dto.precio.getD product.precio,
          stock := dto.stock.getD product.stock,
          imageUrl := mergeOpt dto.imageUrl product.imageUrl,
          updatedAt := now }
      (.ok updated,
       { s with products := replaceById Product.id s.products updated })

/-- `ProductsService.remove(id)`: fetch via `findOne` (active only), set
`isActive := false`, save. -/
def productsRemove (s : Store) (id : Nat) (now : Nat) :
    Except ServiceError Unit × Store :=
  match productsFindOne s id with
  | .error e => (.error e, s)
  | .ok product =>
    let updated : Product := { product with isActive := false, updatedAt := now }
    (.ok (), { s with products := replaceById Product.id s.products updated })

/-! ## The orchestrator operations as one step relation -/

/-- One mutating orchestrator call, with its payload and save timestamp. -/
inductive Op
  | userCreate (dto : CreateUserDto) (now : Nat)
  | userUpdate (id : Nat) (dto : UpdateUserDto) (now : Nat)
  | userRemove (id : Nat) (now : Nat)
  | catCreate (dto : CreateCategoryDto) (now : Nat)
  | catUpdate (id : Nat) (dto : UpdateCategoryDto) (now : Nat)
  | catRemove (id : Nat) (now : Nat)
  | prodCreate (dto : CreateProductDto) (now : Nat)
  | prodUpdate (id : Nat) (dto : UpdateProductDto) (now : Nat)
  | prodRemove (id : Nat) (now : Nat)
deriving Repr, DecidableEq

/-- The store an operation leaves behind. -/
def applyOp (s : Store) : Op → Store
  | .userCreate dto now => (usersCreate s dto now).2
  | .userUpdate id dto now => (usersUpdate s id dto now).2
  | .userRemove id now => (usersRemove s id now).2
  | .catCreate dto now => (categoriesCreate s dto now).2
  | .catUpdate id dto now => (categoriesUpdate s id dto now).2
  | .catRemove id now => (categoriesRemove s id now).2
  | .prodCreate dto now => (productsCreate s dto now).2
  | .prodUpdate id dto now => (productsUpdate s id dto now).2
  | .prodRemove id now => (productsRemove s id now).2

/-- The outcome of an operation, with the returned record erased. -/
def opOutcome (s : Store) : Op → Except ServiceError Unit
  | .userCreate dto now => (usersCreate s dto now).1.map (fun _ => ())
  | .userUpdate id dto now => (usersUpdate s id dto now).1.map (fun _ => ())
  | .userRemove id now => (usersRemove s id now).1
  | .catCreate dto now => (categoriesCreate s dto now).1.map (fun _ => ())
  | .catUpdate id dto now => (categoriesUpdate s id dto now).1.map (fun _ => ())
  | .catRemove id now => (categoriesRemove s id now).1
  | .prodCreate dto now => (productsCreate s dto now).1.map (fun _ => ())
  | .prodUpdate id dto now => (productsUpdate s id dto now).1.map (fun _ => ())
  | .prodRemove id now => (productsRemove s id now).1

/-- The store after a sequence of orchestrator calls starting from the empty
database. -/
def execOps (ops : List Op) : Store :=
  ops.foldl applyOp emptyStore

/-- The referential-integrity invariant: every active product's foreign key
points at an active category row. -/
def ActiveProductHasActiveCategory (s : Store) : Prop :=
  ∀ p ∈ s.products, p.isActive = true →
    ∃ c ∈ s.categories, c.id = p.categoryId ∧ c.isActive = true

/-! ## Concrete fixtures used by witnesses and counterexamples -/

/-- An active category row, as created by `categoriesCreate` on the empty
store. -/
def catElectronics : Category :=
  { id := 1, nombre := "Electronics", descripcion := none,
    isActive := true, createdAt := 0, updatedAt := 0 }

/-- An inactive (soft-deleted) category row. -/
def catMuebles : Category :=
  { id := 2, nombre := "Muebles", descripcion := none,
    isActive := false, createdAt := 0, updatedAt := 0 }

/-- An active product row referencing category 1. -/
def prodLaptop : Product :=
  { id := 1, nombre := "Laptop", descripcion := none, precio := 99999,
    stock := 5, imageUrl := none, isActive := true, categoryId := 1,
    createdAt := 0, updatedAt := 0 }

/-- An inactive product row referencing category 1. -/
def prodMouse : Product :=
  { id := 2, nombre := "Mouse", descripcion := none, precio := 1999,
    stock := 3, imageUrl := none, isActive := false, categoryId := 1,
    createdAt := 0, updatedAt := 0 }

/-- An active user row. -/
def userAlice : User :=
  { id := 1, email := "a@x.com", password := bcryptHash "secret1",
    nombre := "A", apellido := "B", isActive := true,
    createdAt := 0, updatedAt := 0 }

/-- An inactive (soft-deleted) user row. -/
def userBob : User :=
  { id := 2, email := "b@x.com", password := bcryptHash "secret2",
    nombre := "Bo", apellido := "B", isActive := false,
    createdAt := 0, updatedAt := 0 }

/-! ## Shared lemmas about the store primitives -/

/-- An element of a `replaceById` result is either the written row or an
untouched row whose id differs from the written row's. -/
theorem mem_replaceById {idOf : α → Nat} {l : List α} {row y : α}
    (hy : y ∈ replaceById idOf l row) :
    y = row ∨ (y ∈ l ∧ idOf y ≠ idOf row) := by
  rw [replaceById, List.mem_map] at hy
  obtain ⟨x, hx, hfx⟩ := hy
  by_cases h : idOf x = idOf row
  · left
    rw [← hfx]
    simp [h]
  · right
    have hyx : y = x := by rw [← hfx]; simp [h]
    subst hyx
    exact ⟨hx, h⟩

/-- The written row is present in a `replaceById` result as soon as some row
of the list carries its id. -/
theorem self_mem_replaceById {idOf : α → Nat} {l : List α} {row x : α}
    (hx : x ∈ l) (h : idOf x = idOf row) : row ∈ replaceById idOf l row := by
  rw [replaceById, List.mem_map]
  exact ⟨x, hx, by simp [h]⟩

/-- A row whose id differs from the written one survives `replaceById`
untouched. -/
theorem mem_replaceById_of_ne {idOf : α → Nat} {l : List α} {row x : α}
    (hx : x ∈ l) (h : idOf x ≠ idOf row) : x ∈ replaceById idOf l row := by
  rw [replaceById, List.mem_map]
  exact ⟨x, hx, by simp [h]⟩

/-! ## C2 — Category deactivation -/

/-- C2: for every Category id, `deactivate(id)` fails with NotFound if no
Category row with that id exists; fails with BadRequest whose message lists
the count of active child Products if at least one child Product has
`active = true`; and otherwise sets the Category's active flag to false and
persists it. -/
theorem c2_category_deactivate_spec (s : Store) (id : Nat) (now : Nat) :
    ((∀ c ∈ s.categories, c.id ≠ id) →
      categoriesRemove s id now =
        (.error (.notFound ("Categoría con ID " ++ toString id ++ " no encontrada")), s)) ∧
    (∀ category, s.categories.find? (fun c => c.id == id) = some category →
      (∀ n, n = ((categoryProducts s category).filter (fun p => p.isActive)).length →
        0 < n →
        categoriesRemove s id now =
          (.error (.badRequest ("No se puede eliminar la categoría porque tiene " ++
            toString n ++ " producto(s) activo(s) asociado(s)")), s)) ∧
      (((categoryProducts s category).filter (fun p => p.isActive)).length = 0 →
        categoriesRemove s id now =
          (.ok (), { s with categories := (replaceById Category.id s.categories
            ({ category with isActive := false, updatedAt := now })) }))) := by
  constructor
  · intro h
    have hnone : s.categories.find? (fun c => c.id == id) = none := by
      rw [List.find?_eq_none]
      intro c hc
      simp [h c hc]
    simp [categoriesRemove, hnone]
  · intro category hfind
    constructor
    · intro n hn hpos
      subst hn
      simp [categoriesRemove, hfind, hpos]
    · intro hzero
      simp [categoriesRemove, hfind, hzero]

/-- Witness for C2: on concrete stores, a missing id yields NotFound, one
active child Laptop yields BadRequest counting 1, and an inactive-only child
lets the deactivation persist the inactive flag. -/
theorem c2_category_deactivate_spec_witness :
    categoriesRemove emptyStore 5 9 =
      (.error (.notFound ("Categoría con ID " ++ toString 5 ++ " no encontrada")), emptyStore) ∧
    categoriesRemove ⟨[], [catElectronics], [prodLaptop], 1, 2, 2⟩ 1 9 =
      (.error (.badRequest ("No se puede eliminar la categoría porque tiene " ++
        toString 1 ++ " producto(s) activo(s) asociado(s)")),
        ⟨[], [catElectronics], [prodLaptop], 1, 2, 2⟩) ∧
    categoriesRemove ⟨[], [catElectronics], [prodMouse], 1, 2, 2⟩ 1 9 =
      (.ok (), ⟨[], replaceById Category.id [catElectronics]
        ({ catElectronics with isActive := false, updatedAt := 9 }),
        [prodMouse], 1, 2, 2⟩) := by
  refine ⟨?_, ?_, ?_⟩
  · exact (c2_category_deactivate_spec emptyStore 5 9).1 (by simp [emptyStore])
  · exact ((c2_category_deactivate_spec ⟨[], [catElectronics], [prodLaptop], 1, 2, 2⟩ 1 9).2
      catElectronics (by decide)).1 1 (by decide) (by decide)
  · exact ((c2_category_deactivate_spec ⟨[], [catElectronics], [prodMouse], 1, 2, 2⟩ 1 9).2
      catElectronics (by decide)).2 (by decide)

/-! ## C3 — Product creation against its Category -/

/-- C3: for every Product-create payload, if the payload's categoryId matches
no Category row or only inactive ones, the operation fails with NotFound and
no Product is persisted (the store is unchanged); if it matches an existing
active Category, the create succeeds, the new Product is persisted, and the
returned Product's category is such an active Category with that id. -/
theorem c3_product_create_spec (s : Store) (dto : CreateProductDto) (now : Nat) :
    ((∀ c ∈ s.categories, c.id = dto.categoryId → c.isActive = false) →
      productsCreate s dto now =
        (.error (.notFound ("Categoría con ID " ++ toString dto.categoryId ++ " no encontrada")), s)) ∧
    ((∃ c ∈ s.categories, c.id = dto.categoryId ∧ c.isActive = true) →
      ∃ product category,
        productsCreate s dto now =
          (.ok (product, category),
           { s with products := s.products ++ [product],
                    nextProductId := s.nextProductId + 1 }) ∧
        category ∈ s.categories ∧ category.id = dto.categoryId ∧
        category.isActive = true ∧ product.categoryId = dto.categoryId ∧
        product.isActive = true ∧
        product ∈ (productsCreate s dto now).2.products) := by
  constructor
  · intro h
    have hnone : s.categories.find? (fun c => c.id == dto.categoryId && c.isActive) = none := by
      rw [List.find?_eq_none]
      intro c hc
      by_cases hid : c.id = dto.categoryId
      · simp [hid, h c hc hid]
      · simp [hid]
    simp [productsCreate, hnone]
  · intro h
    have hsome : (s.categories.find? (fun c => c.id == dto.categoryId && c.isActive)).isSome := by
      rw [List.find?_isSome]
      obtain ⟨c, hc, hcid, hca⟩ := h
      exact ⟨c, hc, by simp [hcid, hca]⟩
    obtain ⟨category, hfind⟩ := Option.isSome_iff_exists.mp hsome
    have hpred := List.find?_some hfind
    have hmem := List.mem_of_find?_eq_some hfind
    rw [Bool.and_eq_true] at hpred
    have hcid : category.id = dto.categoryId := by
      simpa using hpred.1
    have hcact : category.isActive = true := hpred.2
    refine ⟨{ id := s.nextProductId, nombre := dto.nombre,
              descripcion := dto.descripcion, precio := dto.precio,
              stock := dto.stock, imageUrl := dto.imageUrl,
              isActive := true, categoryId := category.id,
              createdAt := now, updatedAt := now },
            category, ?_, hmem, hcid, hcact, hcid, rfl, ?_⟩
    · simp [productsCreate, hfind]
    · simp [productsCreate, hfind]

/-- Witness for C3: against a store holding the active Electronics category
and the inactive Muebles category, a payload naming category 2 (inactive) or
7 (absent) is refused with NotFound and the store is unchanged, while a
payload naming category 1 persists a product whose category is Electronics. -/
theorem c3_product_create_spec_witness :
    productsCreate ⟨[], [catElectronics, catMuebles], [], 1, 3, 1⟩
        { nombre := "Silla", precio := 500, stock := 1, categoryId := 2 } 4 =
      (.error (.notFound ("Categoría con ID " ++ toString 2 ++ " no encontrada")),
        ⟨[], [catElectronics, catMuebles], [], 1, 3, 1⟩) ∧
    productsCreate ⟨[], [catElectronics, catMuebles], [], 1, 3, 1⟩
        { nombre := "Silla", precio := 500, stock := 1, categoryId := 7 } 4 =
      (.error (.notFound ("Categoría con ID " ++ toString 7 ++ " no encontrada")),
        ⟨[], [catElectronics, catMuebles], [], 1, 3, 1⟩) ∧
    ∃ product category,
      productsCreate ⟨[], [catElectronics, catMuebles], [], 1, 3, 1⟩
          { nombre := "Laptop", precio := 99999, stock := 5, categoryId := 1 } 4 =
        (.ok (product, category),
         { users := [], categories := [catElectronics, catMuebles],
           products := [] ++ [product], nextUserId := 1, nextCategoryId := 3,
           nextProductId := 1 + 1 }) ∧
      category ∈ [catElectronics, catMuebles] ∧ category.id = 1 ∧
      category.isActive = true ∧ product.categoryId = 1 ∧ product.isActive = true ∧
      product ∈ (productsCreate ⟨[], [catElectronics, catMuebles], [], 1, 3, 1⟩
          { nombre := "Laptop", precio := 99999, stock := 5, categoryId := 1 } 4).2.products := by
  refine ⟨?_, ?_, ?_⟩
  · exact (c3_product_create_spec ⟨[], [catElectronics, catMuebles], [], 1, 3, 1⟩
      { nombre := "Silla", precio := 500, stock := 1, categoryId := 2 } 4).1 (by decide)
  · exact (c3_product_create_spec ⟨[], [catElectronics, catMuebles], [], 1, 3, 1⟩
      { nombre := "Silla", precio := 500, stock := 1, categoryId := 7 } 4).1 (by decide)
  · exact (c3_product_create_spec ⟨[], [catElectronics, catMuebles], [], 1, 3, 1⟩
      { nombre := "Laptop", precio := 99999, stock := 5, categoryId := 1 } 4).2
      ⟨catElectronics, by decide, by decide, by decide⟩

/-! ## C6 — Atomicity of every orchestrator operation -/

/-- C6: every orchestrator operation (create, update, deactivate, for every
entity) that fails does so with one of the three service errors and leaves the
store completely unchanged — every validation failure occurs before any
persistence attempt. -/
theorem c6_operations_atomic (s : Store) (op : Op) (e : ServiceError) :
    opOutcome s op = .error e → applyOp s op = s := by
  cases op <;>
    simp only [opOutcome, applyOp, usersCreate, usersUpdate, usersRemove,
      categoriesCreate, categoriesUpdate, categoriesRemove,
      productsCreate, productsUpdate, productsRemove] <;>
    intro h <;>
    (repeat' split at h) <;> simp_all [Except.map]

/-- Witness for C6: removing user 1 from the empty store fails with NotFound
and leaves the empty store unchanged. -/
theorem c6_operations_atomic_witness :
    opOutcome emptyStore (Op.userRemove 1 0) =
      .error (.notFound ("Usuario con ID " ++ toString 1 ++ " no encontrado")) ∧
    applyOp emptyStore (Op.userRemove 1 0) = emptyStore :=
  ⟨by rfl, c6_operations_atomic emptyStore (Op.userRemove 1 0)
    (.notFound ("Usuario con ID " ++ toString 1 ++ " no encontrado")) (by rfl)⟩

/-! ## C10 — Asymmetry of deactivate on already-inactive records -/

/-- C10: deactivate behaves asymmetrically across entities on an
already-inactive record: a Category row that exists with `active = false`
(and has no active child Products) is deactivated again successfully — the
lookup does not filter on the active flag — whereas a User or Product that
exists only with `active = false` yields NotFound, because their lookups
require `active = true`. -/
theorem c10_remove_asymmetry (s : Store) (id : Nat) (now : Nat) :
    (∀ category, s.categories.find? (fun c => c.id == id) = some category →
      category.isActive = false →
      ((categoryProducts s category).filter (fun p => p.isActive)).length = 0 →
      categoriesRemove s id now =
        (.ok (), { s with categories := (replaceById Category.id s.categories
          ({ category with isActive := false, updatedAt := now })) })) ∧
    ((∃ u ∈ s.users, u.id = id ∧ u.isActive = false) →
      (∀ u ∈ s.users, u.id = id → u.isActive = false) →
      usersRemove s id now =
        (.error (.notFound ("Usuario con ID " ++ toString id ++ " no encontrado")), s)) ∧
    ((∃ p ∈ s.products, p.id = id ∧ p.isActive = false) →
      (∀ p ∈ s.products, p.id = id → p.isActive = false) →
      productsRemove s id now =
        (.error (.notFound ("Producto con ID " ++ toString id ++ " no encontrado")), s)) := by
  refine ⟨?_, ?_, ?_⟩
  · intro category hfind _ hzero
    simp [categoriesRemove, hfind, hzero]
  · intro _ hall
    have hnone : s.users.find? (fun u => u.id == id && u.isActive) = none := by
      rw [List.find?_eq_none]
      intro u hu
      by_cases hid : u.id = id
      · simp [hid, hall u hu hid]
      · simp [hid]
    simp [usersRemove, usersFindOne, hnone]
  · intro _ hall
    have hnone : s.products.find? (fun p => p.id == id && p.isActive) = none := by
      rw [List.find?_eq_none]
      intro p hp
      by_cases hid : p.id = id
      · simp [hid, hall p hp hid]
      · simp [hid]
    simp [productsRemove, productsFindOne, hnone]

/-- Witness for C10: in a store whose only rows are the inactive category 2,
the inactive user 2 and the inactive product 2, deactivating the category
succeeds again while deactivating the user or the product is NotFound. -/
theorem c10_remove_asymmetry_witness :
    categoriesRemove ⟨[userBob], [catMuebles], [prodMouse], 3, 3, 3⟩ 2 9 =
      (.ok (), ⟨[userBob], replaceById Category.id [catMuebles]
        ({ catMuebles with isActive := false, updatedAt := 9 }),
        [prodMouse], 3, 3, 3⟩) ∧
    usersRemove ⟨[userBob], [catMuebles], [prodMouse], 3, 3, 3⟩ 2 9 =
      (.error (.notFound ("Usuario con ID " ++ toString 2 ++ " no encontrado")),
        ⟨[userBob], [catMuebles], [prodMouse], 3, 3, 3⟩) ∧
    productsRemove ⟨[userBob], [catMuebles], [prodMouse], 3, 3, 3⟩ 2 9 =
      (.error (.notFound ("Producto con ID " ++ toString 2 ++ " no encontrado")),
        ⟨[userBob], [catMuebles], [prodMouse], 3, 3, 3⟩) := by
  refine ⟨?_, ?_, ?_⟩
  · exact (c10_remove_asymmetry ⟨[userBob], [catMuebles], [prodMouse], 3, 3, 3⟩ 2 9).1
      catMuebles (by decide) (by decide) (by decide)
  · exact (c10_remove_asymmetry ⟨[userBob], [catMuebles], [prodMouse], 3, 3, 3⟩ 2 9).2.1
      ⟨userBob, by decide, by decide, by decide⟩ (by decide)
  · exact (c10_remove_asymmetry ⟨[userBob], [catMuebles], [prodMouse], 3, 3, 3⟩ 2 9).2.2
      ⟨prodMouse, by decide, by decide, by decide⟩ (by decide)

/-! ## C4 — Soft delete hides records from reads but not from uniqueness -/

/-- C4: after `deactivate(id)` succeeds on a User or Category, that record no
longer appears in `list()` and `getById(id)` fails with NotFound, yet the row
still participates in duplicate detection: a subsequent create whose natural
key (User email, Category name) equals the deactivated record's natural key
fails with Conflict, because the duplicate-check query does not filter on the
active flag. -/
theorem c4_soft_delete_uniqueness (s : Store) (id : Nat) (now : Nat) :
    (∀ u, s.users.find? (fun v => v.id == id && v.isActive) = some u →
      (usersRemove s id now).1 = .ok () ∧
      (∀ v ∈ usersFindAll (usersRemove s id now).2, v.id ≠ id) ∧
      usersFindOne (usersRemove s id now).2 id =
        .error (.notFound ("Usuario con ID " ++ toString id ++ " no encontrado")) ∧
      (∀ dto : CreateUserDto, dto.email = u.email → ∀ now2,
        usersCreate (usersRemove s id now).2 dto now2 =
          (.error (.conflict "El correo ya está registrado"),
           (usersRemove s id now).2))) ∧
    (∀ c, s.categories.find? (fun x => x.id == id) = some c →
      ((categoryProducts s c).filter (fun p => p.isActive)).length = 0 →
      (categoriesRemove s id now).1 = .ok () ∧
      (∀ d ∈ categoriesFindAll (categoriesRemove s id now).2, d.1.id ≠ id) ∧
      categoriesFindOne (categoriesRemove s id now).2 id =
        .error (.notFound ("Categoría con ID " ++ toString id ++ " no encontrada")) ∧
      (∀ dto : CreateCategoryDto, dto.nombre = c.nombre → ∀ now2,
        categoriesCreate (categoriesRemove s id now).2 dto now2 =
          (.error (.conflict "Ya existe una categoría con ese nombre"),
           (categoriesRemove s id now).2))) := by
  constructor
  · intro u hfind
    have hu_mem := List.mem_of_find?_eq_some hfind
    have hu_pred := List.find?_some hfind
    rw [Bool.and_eq_true] at hu_pred
    have hu_id : u.id = id := by simpa using hu_pred.1
    have hrem : usersRemove s id now =
        (.ok (), { s with users := (replaceById User.id s.users
          ({ u with isActive := false, updatedAt := now })) }) := by
      simp [usersRemove, usersFindOne, hfind]
    rw [hrem]
    refine ⟨rfl, ?_, ?_, ?_⟩
    · intro v hv
      rw [usersFindAll, List.mem_filter] at hv
      rcases mem_replaceById hv.1 with rfl | ⟨_, hne⟩
      · simpa using hv.2
      · simpa [hu_id] using hne
    · have hnone : (replaceById User.id s.users
          ({ u with isActive := false, updatedAt := now })).find?
          (fun v => v.id == id && v.isActive) = none := by
        rw [List.find?_eq_none]
        intro v hv
        rcases mem_replaceById hv with rfl | ⟨_, hne⟩
        · simp
        · have hvi : v.id ≠ id := by simpa [hu_id] using hne
          simp [hvi]
      simp [usersFindOne, hnone]
    · intro dto hdto now2
      have hupd_mem : ({ u with isActive := false, updatedAt := now } : User) ∈
          replaceById User.id s.users ({ u with isActive := false, updatedAt := now }) :=
        self_mem_replaceById hu_mem rfl
      have hsome : ((replaceById User.id s.users
          ({ u with isActive := false, updatedAt := now })).find?
          (fun v => v.email == dto.email)).isSome := by
        rw [List.find?_isSome]
        exact ⟨_, hupd_mem, by simp [hdto]⟩
      obtain ⟨w, hw⟩ := Option.isSome_iff_exists.mp hsome
      simp [usersCreate, hw]
  · intro c hfind hzero
    have hc_mem := List.mem_of_find?_eq_some hfind
    have hc_id : c.id = id := by simpa using List.find?_some hfind
    have hrem : categoriesRemove s id now =
        (.ok (), { s with categories := (replaceById Category.id s.categories
          ({ c with isActive := false, updatedAt := now })) }) := by
      simp [categoriesRemove, hfind, hzero]
    rw [hrem]
    refine ⟨rfl, ?_, ?_, ?_⟩
    · intro d hd
      rw [categoriesFindAll, List.mem_map] at hd
      obtain ⟨c', hc', rfl⟩ := hd
      rw [List.mem_filter] at hc'
      rcases mem_replaceById hc'.1 with rfl | ⟨_, hne⟩
      · simpa using hc'.2
      · simpa [hc_id] using hne
    · have hnone : (replaceById Category.id s.categories
          ({ c with isActive := false, updatedAt := now })).find?
          (fun x => x.id == id && x.isActive) = none := by
        rw [List.find?_eq_none]
        intro x hx
        rcases mem_replaceById hx with rfl | ⟨_, hne⟩
        · simp
        · have hxi : x.id ≠ id := by simpa [hc_id] using hne
          simp [hxi]
      simp [categoriesFindOne, hnone]
    · intro dto hdto now2
      have hupd_mem : ({ c with isActive := false, updatedAt := now } : Category) ∈
          replaceById Category.id s.categories
            ({ c with isActive := false, updatedAt := now }) :=
        self_mem_replaceById hc_mem rfl
      have hsome : ((replaceById Category.id s.categories
          ({ c with isActive := false, updatedAt := now })).find?
          (fun x => x.nombre == dto.nombre)).isSome := by
        rw [List.find?_isSome]
        exact ⟨_, hupd_mem, by simp [hdto]⟩
      obtain ⟨w, hw⟩ := Option.isSome_iff_exists.mp hsome
      simp [categoriesCreate, hw]

/-- Witness for C4: deactivating user 1 (email `a@x.com`) and category 1
(nombre `Electronics`) on concrete stores makes their `getById` NotFound,
while re-creating with the same email or nombre still Conflicts. -/
theorem c4_soft_delete_uniqueness_witness :
    usersFindOne (usersRemove ⟨[userAlice], [], [], 2, 1, 1⟩ 1 5).2 1 =
      .error (.notFound ("Usuario con ID " ++ toString 1 ++ " no encontrado")) ∧
    usersCreate (usersRemove ⟨[userAlice], [], [], 2, 1, 1⟩ 1 5).2
        ⟨"a@x.com", "pw2", "X", "Y"⟩ 6 =
      (.error (.conflict "El correo ya está registrado"),
       (usersRemove ⟨[userAlice], [], [], 2, 1, 1⟩ 1 5).2) ∧
    categoriesFindOne (categoriesRemove ⟨[], [catElectronics], [], 1, 2, 1⟩ 1 5).2 1 =
      .error (.notFound ("Categoría con ID " ++ toString 1 ++ " no encontrada")) ∧
    categoriesCreate (categoriesRemove ⟨[], [catElectronics], [], 1, 2, 1⟩ 1 5).2
        ⟨"Electronics", none⟩ 6 =
      (.error (.conflict "Ya existe una categoría con ese nombre"),
       (categoriesRemove ⟨[], [catElectronics], [], 1, 2, 1⟩ 1 5).2) := by
  refine ⟨?_, ?_, ?_, ?_⟩
  · exact ((c4_soft_delete_uniqueness ⟨[userAlice], [], [], 2, 1, 1⟩ 1 5).1
      userAlice (by decide)).2.2.1
  · exact ((c4_soft_delete_uniqueness ⟨[userAlice], [], [], 2, 1, 1⟩ 1 5).1
      userAlice (by decide)).2.2.2 ⟨"a@x.com", "pw2", "X", "Y"⟩ (by decide) 6
  · exact ((c4_soft_delete_uniqueness ⟨[], [catElectronics], [], 1, 2, 1⟩ 1 5).2
      catElectronics (by decide) (by decide)).2.2.1
  · exact ((c4_soft_delete_uniqueness ⟨[], [catElectronics], [], 1, 2, 1⟩ 1 5).2
      catElectronics (by decide) (by decide)).2.2.2 ⟨"Electronics", none⟩ (by decide) 6

/-! ## C5 — Natural-key uniqueness on update -/

/-- `usersFindOne` succeeds exactly on the first active row with the id. -/
theorem usersFindOne_ok_iff {s : Store} {id : Nat} {u : User} :
    usersFindOne s id = .ok u ↔
      s.users.find? (fun v => v.id == id && v.isActive) = some u := by
  unfold usersFindOne
  split <;> rename_i heq <;> simp [heq]

/-- `categoriesFindOne` succeeds exactly on the first active row with the id,
returning it with its loaded products. -/
theorem categoriesFindOne_ok_iff {s : Store} {id : Nat} {c : Category}
    {ps : List Product} :
    categoriesFindOne s id = .ok (c, ps) ↔
      (s.categories.find? (fun x => x.id == id && x.isActive) = some c ∧
        ps = categoryProducts s c) := by
  unfold categoriesFindOne
  split <;> rename_i heq
  all_goals simp [heq]
  all_goals aesop

/-- `productsFindOne` succeeds exactly on the first active row with the id. -/
theorem productsFindOne_ok_iff {s : Store} {id : Nat} {p : Product} :
    productsFindOne s id = .ok p ↔
      s.products.find? (fun x => x.id == id && x.isActive) = some p := by
  unfold productsFindOne
  split <;> rename_i heq <;> simp [heq]

/-- C5: for every User or Category update, setting the natural key (email,
name) to a nonempty value already held by some record while differing from the
record's own value yields Conflict and leaves the store unchanged; setting it
to the record's own current value succeeds with the other fields merged; and
omitting the natural-key field performs zero duplicate-check queries and
passes the other fields through. -/
theorem c5_update_natural_key (s : Store) (id : Nat) (now : Nat) :
    ((∀ dto : UpdateUserDto, ∀ user, usersFindOne s id = .ok user →
      ∀ e, dto.email = some e → e ≠ "" → e ≠ user.email →
      (∃ u' ∈ s.users, u'.email = e) →
      usersUpdate s id dto now =
        (.error (.conflict "El correo ya está registrado"), s)) ∧
    (∀ dto : UpdateUserDto, ∀ user, usersFindOne s id = .ok user →
      dto.email = some user.email →
      (usersUpdate s id dto now).1 = .ok
        { user with
          email := user.email,
          password := (match dto.password with
            | some pw => if pw != "" then bcryptHash pw else pw
            | none => user.password),
          nombre := dto.nombre.getD user.nombre,
          apellido := dto.apellido.getD user.apellido,
          updatedAt := now }) ∧
    (∀ dto : UpdateUserDto, dto.email = none →
      usersUpdateDupChecks s id dto = 0 ∧
      (∀ user, usersFindOne s id = .ok user →
        (usersUpdate s id dto now).1 = .ok
          { user with
            password := (match dto.password with
              | some pw => if pw != "" then bcryptHash pw else pw
              | none => user.password),
            nombre := dto.nombre.getD user.nombre,
            apellido := dto.apellido.getD user.apellido,
            updatedAt := now }))) ∧
    ((∀ dto : UpdateCategoryDto, ∀ category ps,
      categoriesFindOne s id = .ok (category, ps) →
      ∀ nm, dto.nombre = some nm → nm ≠ "" → nm ≠ category.nombre →
      (∃ c' ∈ s.categories, c'.nombre = nm) →
      categoriesUpdate s id dto now =
        (.error (.conflict "Ya existe una categoria con ese nombre"), s)) ∧
    (∀ dto : UpdateCategoryDto, ∀ category ps,
      categoriesFindOne s id = .ok (category, ps) →
      dto.nombre = some category.nombre →
      (categoriesUpdate s id dto now).1 = .ok
        { category with
          nombre := category.nombre,
          descripcion := mergeOpt dto.descripcion category.descripcion,
          updatedAt := now }) ∧
    (∀ dto : UpdateCategoryDto, dto.nombre = none →
      categoriesUpdateDupChecks s id dto = 0 ∧
      (∀ category ps, categoriesFindOne s id = .ok (category, ps) →
        (categoriesUpdate s id dto now).1 = .ok
          { category with
            descripcion := mergeOpt dto.descripcion category.descripcion,
            updatedAt := now }))) := by
  refine ⟨⟨?_, ?_, ?_⟩, ?_, ?_, ?_⟩
  · intro dto user hfind e he hne hneq hex
    have hsome : (s.users.find? (fun v => v.email == e)).isSome := by
      rw [List.find?_isSome]
      obtain ⟨u', hu', hem⟩ := hex
      exact ⟨u', hu', by simp [hem]⟩
    unfold usersUpdate
    simp [hfind, he, hne, hneq, hsome]
  · intro dto user hfind he
    unfold usersUpdate
    simp [hfind, he]
  · intro dto he
    constructor
    · unfold usersUpdateDupChecks
      split <;> simp [he]
    · intro user hfind
      unfold usersUpdate
      simp [hfind, he]
  · intro dto category ps hfind nm hnm hne hneq hex
    have hsome : (s.categories.find? (fun c => c.nombre == nm)).isSome := by
      rw [List.find?_isSome]
      obtain ⟨c', hc', hcm⟩ := hex
      exact ⟨c', hc', by simp [hcm]⟩
    unfold categoriesUpdate
    simp [hfind, hnm, hne, hneq, hsome]
  · intro dto category ps hfind hnm
    unfold categoriesUpdate
    simp [hfind, hnm]
  · intro dto hnm
    constructor
    · unfold categoriesUpdateDupChecks
      split <;> simp [hnm]
    · intro category ps hfind
      unfold categoriesUpdate
      simp [hfind, hnm]

/-- Witness for C5: renaming user 1's email to the soft-deleted user 2's email
Conflicts; re-submitting the own email succeeds; an email-less payload runs
zero duplicate checks; and the same three outcomes for category names. -/
theorem c5_update_natural_key_witness :
    usersUpdate ⟨[userAlice, userBob], [], [], 3, 1, 1⟩ 1
        { email := some "b@x.com" } 7 =
      (.error (.conflict "El correo ya está registrado"),
       ⟨[userAlice, userBob], [], [], 3, 1, 1⟩) ∧
    (usersUpdate ⟨[userAlice, userBob], [], [], 3, 1, 1⟩ 1
        { email := some "a@x.com" } 7).1 = .ok
      ({ userAlice with email := userAlice.email, updatedAt := 7 }) ∧
    usersUpdateDupChecks ⟨[userAlice, userBob], [], [], 3, 1, 1⟩ 1
      { nombre := some "Alicia" } = 0 ∧
    (usersUpdate ⟨[userAlice, userBob], [], [], 3, 1, 1⟩ 1
        { nombre := some "Alicia" } 7).1 = .ok
      ({ userAlice with nombre := "Alicia", updatedAt := 7 }) ∧
    categoriesUpdate ⟨[], [catElectronics, catMuebles], [], 1, 3, 1⟩ 1
        { nombre := some "Muebles" } 7 =
      (.error (.conflict "Ya existe una categoria con ese nombre"),
       ⟨[], [catElectronics, catMuebles], [], 1, 3, 1⟩) ∧
    (categoriesUpdate ⟨[], [catElectronics, catMuebles], [], 1, 3, 1⟩ 1
        { nombre := some "Electronics" } 7).1 = .ok
      ({ catElectronics with nombre := catElectronics.nombre, updatedAt := 7 }) ∧
    categoriesUpdateDupChecks ⟨[], [catElectronics, catMuebles], [], 1, 3, 1⟩ 1
      { descripcion := some "gadgets" } = 0 ∧
    (categoriesUpdate ⟨[], [catElectronics, catMuebles], [], 1, 3, 1⟩ 1
        { descripcion := some "gadgets" } 7).1 = .ok
      ({ catElectronics with
         descripcion := mergeOpt (some "gadgets") none,
         updatedAt := 7 }) := by
  refine ⟨?_, ?_, ?_, ?_, ?_, ?_, ?_, ?_⟩
  · exact (c5_update_natural_key ⟨[userAlice, userBob], [], [], 3, 1, 1⟩ 1 7).1.1
      { email := some "b@x.com" } userAlice (by rfl) "b@x.com" rfl (by decide)
      (by decide) ⟨userBob, by decide, by decide⟩
  · exact (c5_update_natural_key ⟨[userAlice, userBob], [], [], 3, 1, 1⟩ 1 7).1.2.1
      { email := some "a@x.com" } userAlice (by rfl) rfl
  · exact ((c5_update_natural_key ⟨[userAlice, userBob], [], [], 3, 1, 1⟩ 1 7).1.2.2
      { nombre := some "Alicia" } rfl).1
  · exact ((c5_update_natural_key ⟨[userAlice, userBob], [], [], 3, 1, 1⟩ 1 7).1.2.2
      { nombre := some "Alicia" } rfl).2 userAlice (by rfl)
  · exact (c5_update_natural_key ⟨[], [catElectronics, catMuebles], [], 1, 3, 1⟩ 1 7).2.1
      { nombre := some "Muebles" } catElectronics [] (by rfl) "Muebles" rfl
      (by decide) (by decide) ⟨catMuebles, by decide, by decide⟩
  · exact (c5_update_natural_key ⟨[], [catElectronics, catMuebles], [], 1, 3, 1⟩ 1 7).2.2.1
      { nombre := some "Electronics" } catElectronics [] (by rfl) rfl
  · exact ((c5_update_natural_key ⟨[], [catElectronics, catMuebles], [], 1, 3, 1⟩ 1 7).2.2.2
      { descripcion := some "gadgets" } rfl).1
  · exact ((c5_update_natural_key ⟨[], [catElectronics, catMuebles], [], 1, 3, 1⟩ 1 7).2.2.2
      { descripcion := some "gadgets" } rfl).2 catElectronics [] (by rfl)

/-! ## C7 — Frame conditions of partial updates -/

/-- C7: for every `update(id, partialPayload)` on any entity, every field of
the stored record that is absent from the payload keeps its previous value
after the update — in particular a Product's category reference is unchanged
when `categoryId` is omitted — while `updatedAt` is refreshed by the save
(and `id`, `createdAt` and the active flag are never touched). -/
theorem c7_update_frame (s : Store) (id : Nat) (now : Nat) :
    (∀ dto : UpdateUserDto, ∀ u, usersFindOne s id = .ok u →
      ∀ u', (usersUpdate s id dto now).1 = .ok u' →
        u'.id = u.id ∧ u'.createdAt = u.createdAt ∧ u'.isActive = u.isActive ∧
        u'.updatedAt = now ∧
        (dto.email = none → u'.email = u.email) ∧
        (dto.password = none → u'.password = u.password) ∧
        (dto.nombre = none → u'.nombre = u.nombre) ∧
        (dto.apellido = none → u'.apellido = u.apellido)) ∧
    (∀ dto : UpdateCategoryDto, ∀ c ps, categoriesFindOne s id = .ok (c, ps) →
      ∀ c', (categoriesUpdate s id dto now).1 = .ok c' →
        c'.id = c.id ∧ c'.createdAt = c.createdAt ∧ c'.isActive = c.isActive ∧
        c'.updatedAt = now ∧
        (dto.nombre = none → c'.nombre = c.nombre) ∧
        (dto.descripcion = none → c'.descripcion = c.descripcion)) ∧
    (∀ dto : UpdateProductDto, ∀ p, productsFindOne s id = .ok p →
      ∀ p', (productsUpdate s id dto now).1 = .ok p' →
        p'.id = p.id ∧ p'.createdAt = p.createdAt ∧ p'.isActive = p.isActive ∧
        p'.updatedAt = now ∧
        (dto.categoryId = none → p'.categoryId = p.categoryId) ∧
        (dto.nombre = none → p'.nombre = p.nombre) ∧
        (dto.descripcion = none → p'.descripcion = p.descripcion) ∧
        (dto.precio = none → p'.precio = p.precio) ∧
        (dto.stock = none → p'.stock = p.stock) ∧
        (dto.imageUrl = none → p'.imageUrl = p.imageUrl)) := by
  refine ⟨?_, ?_, ?_⟩
  · intro dto u hfind u' hupd
    simp only [usersUpdate, hfind] at hupd
    split at hupd
    · simp at hupd
    · simp only [Except.ok.injEq] at hupd
      subst hupd
      refine ⟨by simp, by simp, by simp, by simp, ?_, ?_, ?_, ?_⟩ <;>
        intro h <;> simp [h]
  · intro dto c ps hfind c' hupd
    simp only [categoriesUpdate, hfind] at hupd
    split at hupd
    · simp at hupd
    · simp only [Except.ok.injEq] at hupd
      subst hupd
      refine ⟨by simp, by simp, by simp, by simp, ?_, ?_⟩ <;>
        intro h <;> simp [h, mergeOpt]
  · intro dto p hfind p' hupd
    simp only [productsUpdate, hfind] at hupd
    split at hupd
    · rename_i htruthy
      split at hupd
      · simp at hupd
      · simp only [Except.ok.injEq] at hupd
        subst hupd
        refine ⟨by simp, by simp, by simp, by simp, ?_, ?_, ?_, ?_, ?_, ?_⟩ <;>
          intro h <;> first
            | (rw [h] at htruthy; simp at htruthy)
            | simp [h, mergeOpt]
    · simp only [Except.ok.injEq] at hupd
      subst hupd
      refine ⟨by simp, by simp, by simp, by simp, ?_, ?_, ?_, ?_, ?_, ?_⟩ <;>
        intro h <;> simp [h, mergeOpt]

/-- Witness for C7: updating only product 1's stock leaves its name, price,
description, image and category reference untouched while refreshing
`updatedAt`. -/
theorem c7_update_frame_witness :
    prodLaptop.nombre = prodLaptop.nombre ∧
    ((productsUpdate ⟨[], [catElectronics], [prodLaptop], 1, 2, 2⟩ 1
        { stock := some 4 } 8).1 = .ok
      ({ prodLaptop with stock := 4, updatedAt := 8 })) ∧
    ({ prodLaptop with stock := 4, updatedAt := 8 } : Product).categoryId =
      prodLaptop.categoryId := by
  refine ⟨rfl, by rfl, ?_⟩
  have h := (c7_update_frame ⟨[], [catElectronics], [prodLaptop], 1, 2, 2⟩ 1 8).2.2
    { stock := some 4 } prodLaptop (by rfl)
    ({ prodLaptop with stock := 4, updatedAt := 8 }) (by rfl)
  exact h.2.2.2.2.1 rfl

/-! ## C8 — Password hashing -/

/-- A modelled bcrypt hash is never the plaintext it was derived from: the
format marker strictly lengthens the string. -/
theorem bcryptHash_ne (p : String) : bcryptHash p ≠ p := by
  intro h
  have hlen := congrArg String.length h
  rw [bcryptHash, String.length_append] at hlen
  have h7 : ("$2b$10$" : String).length = 7 := rfl
  omega

/-- Counterexample for C8 as stated: a create whose email field carries the
same string as the password succeeds, and the created record's email field
equals the submitted plaintext password — so "the created record has no field
equal to the submitted plaintext password" fails. -/
theorem c8_plaintext_field_counterexample :
    ((usersCreate emptyStore
        { email := "secreto1", password := "secreto1",
          nombre := "Nom", apellido := "Ape" } 0).1.toOption.map User.email) =
      some "secreto1" := by rfl

/-- C8 (amended): for every User create, and every User update that supplies
a nonempty password, the persisted and returned record's password field holds
the bcrypt hash of the submitted password and is never the plaintext value
itself; fields other than password may coincidentally equal the submitted
string when the client also submits it there. -/
theorem c8_password_never_plaintext (s : Store) (now : Nat) :
    (∀ dto : CreateUserDto, ∀ u, (usersCreate s dto now).1 = .ok u →
      u.password = bcryptHash dto.password ∧ u.password ≠ dto.password) ∧
    (∀ id : Nat, ∀ dto : UpdateUserDto, ∀ pw, dto.password = some pw → pw ≠ "" →
      ∀ u', (usersUpdate s id dto now).1 = .ok u' →
        u'.password = bcryptHash pw ∧ u'.password ≠ pw) := by
  constructor
  · intro dto u hok
    unfold usersCreate at hok
    split at hok
    · simp at hok
    · simp only [Except.ok.injEq] at hok
      subst hok
      exact ⟨rfl, bcryptHash_ne dto.password⟩
  · intro id dto pw hpw hne u' hok
    rcases hf : usersFindOne s id with e | u
    · simp [usersUpdate, hf] at hok
    · simp only [usersUpdate, hf] at hok
      split at hok
      · simp at hok
      · simp only [Except.ok.injEq] at hok
        subst hok
        constructor
        · simp [hpw, hne]
        · simp only [hpw]
          simp [hne]
          exact bcryptHash_ne pw

/-- Witness for C8 (amended): creating Alice with password `secret1` stores
`bcryptHash "secret1"`, which differs from `secret1`; updating her password to
`secret2` stores its hash, which differs from `secret2`. -/
theorem c8_password_never_plaintext_witness :
    (∃ u, (usersCreate emptyStore
        { email := "a@x.com", password := "secret1",
          nombre := "A", apellido := "B" } 0).1 = .ok u ∧
      u.password = bcryptHash "secret1" ∧ u.password ≠ "secret1") ∧
    (∃ u', (usersUpdate ⟨[userAlice], [], [], 2, 1, 1⟩ 1
        { password := some "secret2" } 3).1 = .ok u' ∧
      u'.password = bcryptHash "secret2" ∧ u'.password ≠ "secret2") := by
  constructor
  · refine ⟨_, rfl, ?_⟩
    exact (c8_password_never_plaintext emptyStore 0).1
      { email := "a@x.com", password := "secret1", nombre := "A", apellido := "B" }
      _ rfl
  · refine ⟨_, rfl, ?_⟩
    exact (c8_password_never_plaintext ⟨[userAlice], [], [], 2, 1, 1⟩ 3).2
      1 { password := some "secret2" } "secret2" rfl (by decide) _ rfl

/-! ## C9 — Category listing includes inactive children -/

/-- C9: for every state of the store, Category `list()` returns exactly the
Categories with `active = true`, and each returned Category (likewise the one
returned by `getById`) carries all of its child Products regardless of each
child's active flag — inactive children are included. -/
theorem c9_category_listing (s : Store) :
    (∀ c : Category, (∃ ps, (c, ps) ∈ categoriesFindAll s) ↔
      (c ∈ s.categories ∧ c.isActive = true)) ∧
    (∀ c ps, (c, ps) ∈ categoriesFindAll s →
      ∀ p : Product, (p ∈ ps ↔ (p ∈ s.products ∧ p.categoryId = c.id))) ∧
    (∀ id c ps, categoriesFindOne s id = .ok (c, ps) →
      c ∈ s.categories ∧ c.isActive = true ∧ c.id = id ∧
      ∀ p : Product, (p ∈ ps ↔ (p ∈ s.products ∧ p.categoryId = c.id))) := by
  refine ⟨?_, ?_, ?_⟩
  · intro c
    constructor
    · rintro ⟨ps, hps⟩
      rw [categoriesFindAll, List.mem_map] at hps
      obtain ⟨c', hc', heq⟩ := hps
      have hcc : c' = c := congrArg Prod.fst heq
      subst hcc
      exact List.mem_filter.mp hc'
    · intro ⟨hmem, hact⟩
      refine ⟨categoryProducts s c, ?_⟩
      rw [categoriesFindAll, List.mem_map]
      exact ⟨c, List.mem_filter.mpr ⟨hmem, hact⟩, rfl⟩
  · intro c ps hps p
    rw [categoriesFindAll, List.mem_map] at hps
    obtain ⟨c', hc', heq⟩ := hps
    cases heq
    rw [categoryProducts, List.mem_filter]
    simp
  · intro id c ps hok
    rw [categoriesFindOne_ok_iff] at hok
    obtain ⟨hfind, hps⟩ := hok
    have hpred := List.find?_some hfind
    rw [Bool.and_eq_true] at hpred
    refine ⟨List.mem_of_find?_eq_some hfind, hpred.2, by simpa using hpred.1, ?_⟩
    intro p
    rw [hps, categoryProducts, List.mem_filter]
    simp

/-- Witness for C9: in a store whose only product is the inactive Mouse of
category 1, `list()` returns Electronics paired with that inactive child, and
`getById 1` carries it as well. -/
theorem c9_category_listing_witness :
    ((prodMouse ∈ [prodMouse]) ↔
      (prodMouse ∈ (⟨[], [catElectronics], [prodMouse], 1, 2, 3⟩ : Store).products ∧
        prodMouse.categoryId = catElectronics.id)) ∧
    (catElectronics ∈ (⟨[], [catElectronics], [prodMouse], 1, 2, 3⟩ : Store).categories ∧
      catElectronics.isActive = true ∧ catElectronics.id = 1 ∧
      ∀ p : Product, (p ∈ [prodMouse] ↔
        (p ∈ (⟨[], [catElectronics], [prodMouse], 1, 2, 3⟩ : Store).products ∧
          p.categoryId = catElectronics.id))) := by
  constructor
  · exact (c9_category_listing ⟨[], [catElectronics], [prodMouse], 1, 2, 3⟩).2.1
      catElectronics [prodMouse] (by decide) prodMouse
  · exact (c9_category_listing ⟨[], [catElectronics], [prodMouse], 1, 2, 3⟩).2.2
      1 catElectronics [prodMouse] (by rfl)

/-! ## C1 — Referential integrity of active Products is an invariant -/

/-- Appending a category row preserves the invariant. -/
theorem inv_append_category {s : Store}
    (h : ActiveProductHasActiveCategory s) (newC : Category) :
    ActiveProductHasActiveCategory
      { s with categories := s.categories ++ [newC] } := by
  intro p hp hpa
  obtain ⟨c, hc, hcid, hca⟩ := h p hp hpa
  exact ⟨c, List.mem_append_left _ hc, hcid, hca⟩

/-- Replacing a category row by an active row preserves the invariant. -/
theorem inv_replace_category_active {s : Store}
    (h : ActiveProductHasActiveCategory s) {updated : Category}
    (hact : updated.isActive = true) :
    ActiveProductHasActiveCategory
      { s with categories := replaceById Category.id s.categories updated } := by
  intro p hp hpa
  obtain ⟨c, hc, hcid, hca⟩ := h p hp hpa
  by_cases hid : c.id = updated.id
  · exact ⟨updated, self_mem_replaceById hc hid, by rw [← hid]; exact hcid, hact⟩
  · exact ⟨c, mem_replaceById_of_ne hc hid, hcid, hca⟩

/-- Replacing a category row preserves the invariant when no active product
references the written row's id (the deactivation guard). -/
theorem inv_replace_category_guarded {s : Store}
    (h : ActiveProductHasActiveCategory s) {updated : Category}
    (hguard : ∀ p ∈ s.products, p.isActive = true → p.categoryId ≠ updated.id) :
    ActiveProductHasActiveCategory
      { s with categories := replaceById Category.id s.categories updated } := by
  intro p hp hpa
  obtain ⟨c, hc, hcid, hca⟩ := h p hp hpa
  by_cases hid : c.id = updated.id
  · exact absurd (by rw [← hcid]; exact hid) (hguard p hp hpa)
  · exact ⟨c, mem_replaceById_of_ne hc hid, hcid, hca⟩

/-- Appending a product row preserves the invariant when the new row, if
active, references an active category. -/
theorem inv_append_product {s : Store}
    (h : ActiveProductHasActiveCategory s) {newP : Product}
    (hwit : newP.isActive = true →
      ∃ c ∈ s.categories, c.id = newP.categoryId ∧ c.isActive = true) :
    ActiveProductHasActiveCategory
      { s with products := s.products ++ [newP] } := by
  intro p hp hpa
  rcases List.mem_append.mp hp with hmem | hmem
  · exact h p hmem hpa
  · have hpe : p = newP := by simpa using hmem
    subst hpe
    exact hwit hpa

/-- Replacing a product row preserves the invariant when the written row, if
active, references an active category. -/
theorem inv_replace_product {s : Store}
    (h : ActiveProductHasActiveCategory s) {updated : Product}
    (hwit : updated.isActive = true →
      ∃ c ∈ s.categories, c.id = updated.categoryId ∧ c.isActive = true) :
    ActiveProductHasActiveCategory
      { s with products := replaceById Product.id s.products updated } := by
  intro p hp hpa
  rcases mem_replaceById hp with rfl | ⟨hmem, _⟩
  · exact hwit hpa
  · exact h p hmem hpa

/-- Every single orchestrator operation preserves the referential-integrity
invariant. -/
theorem applyOp_preserves_inv (s : Store) (op : Op)
    (h : ActiveProductHasActiveCategory s) :
    ActiveProductHasActiveCategory (applyOp s op) := by
  cases op with
  | userCreate dto now =>
    rcases hf : s.users.find? (fun u => u.email == dto.email) with _ | u <;>
      simp only [applyOp, usersCreate, hf] <;> exact h
  | userUpdate id dto now =>
    rcases hf : usersFindOne s id with e | u
    · simp only [applyOp, usersUpdate, hf]
      exact h
    · simp only [applyOp, usersUpdate, hf]
      split <;> exact h
  | userRemove id now =>
    rcases hf : usersFindOne s id with e | u <;>
      simp only [applyOp, usersRemove, hf] <;> exact h
  | catCreate dto now =>
    rcases hf : s.categories.find? (fun c => c.nombre == dto.nombre) with _ | c
    · simp only [applyOp, categoriesCreate, hf]
      exact inv_append_category h _
    · simp only [applyOp, categoriesCreate, hf]
      exact h
  | catUpdate id dto now =>
    rcases hf : categoriesFindOne s id with e | cps
    · simp only [applyOp, categoriesUpdate, hf]
      exact h
    · obtain ⟨category, ps⟩ := cps
      have hfind := (categoriesFindOne_ok_iff.mp hf).1
      have hpred := List.find?_some hfind
      rw [Bool.and_eq_true] at hpred
      simp only [applyOp, categoriesUpdate, hf]
      split
      · exact h
      · exact inv_replace_category_active h hpred.2
  | catRemove id now =>
    rcases hf : s.categories.find? (fun c => c.id == id) with _ | category
    · simp only [applyOp, categoriesRemove, hf]
      exact h
    · simp only [applyOp, categoriesRemove, hf]
      split
      · exact h
      · rename_i hcount
        have hguard : ∀ p ∈ s.products, p.isActive = true →
            p.categoryId ≠ category.id := by
          intro p hp hpa hcid
          have hlen : ((categoryProducts s category).filter
              (fun p => p.isActive)).length = 0 := by omega
          have hnil := List.length_eq_zero.mp hlen
          have : p ∈ (categoryProducts s category).filter (fun p => p.isActive) := by
            rw [List.mem_filter]
            exact ⟨by rw [categoryProducts, List.mem_filter]; simp [hp, hcid], hpa⟩
          rw [hnil] at this
          simp at this
        exact inv_replace_category_guarded h hguard
  | prodCreate dto now =>
    rcases hf : s.categories.find? (fun c => c.id == dto.categoryId && c.isActive)
        with _ | category
    · simp only [applyOp, productsCreate, hf]
      exact h
    · have hpred := List.find?_some hf
      rw [Bool.and_eq_true] at hpred
      simp only [applyOp, productsCreate, hf]
      exact inv_append_product h (fun _ =>
        ⟨category, List.mem_of_find?_eq_some hf, rfl, hpred.2⟩)
  | prodUpdate id dto now =>
    rcases hf : productsFindOne s id with e | product
    · simp only [applyOp, productsUpdate, hf]
      exact h
    · have hfind := productsFindOne_ok_iff.mp hf
      have hppred := List.find?_some hfind
      rw [Bool.and_eq_true] at hppred
      have hpmem := List.mem_of_find?_eq_some hfind
      simp only [applyOp, productsUpdate, hf]
      split
      · rcases hc : s.categories.find?
            (fun c => c.id == dto.categoryId.getD 0 && c.isActive) with _ | category
        · simp only [hc]
          exact h
        · have hcpred := List.find?_some hc
          rw [Bool.and_eq_true] at hcpred
          simp only [hc]
          exact inv_replace_product h (fun _ =>
            ⟨category, List.mem_of_find?_eq_some hc, rfl, hcpred.2⟩)
      · exact inv_replace_product h (fun _ => h product hpmem hppred.2)
  | prodRemove id now =>
    rcases hf : productsFindOne s id with e | product
    · simp only [applyOp, productsRemove, hf]
      exact h
    · simp only [applyOp, productsRemove, hf]
      exact inv_replace_product h (fun hh => by simp at hh)

/-- C1: in every state reachable from the empty store by any sequence of the
create/update/deactivate operations on Users, Categories and Products, every
Product with `active = true` references a Category whose active flag is true —
no active Product is ever the child of an inactive Category. -/
theorem c1_reachable_referential_integrity (ops : List Op) :
    ActiveProductHasActiveCategory (execOps ops) := by
  suffices hgen : ∀ s, ActiveProductHasActiveCategory s →
      ActiveProductHasActiveCategory (ops.foldl applyOp s) by
    refine hgen emptyStore ?_
    intro p hp
    simp [emptyStore] at hp
  induction ops with
  | nil => intro s hs; exact hs
  | cons op rest ih =>
    intro s hs
    exact ih _ (applyOp_preserves_inv s op hs)

/-- The two-operation run used to witness C1: create the Electronics category,
then create the Laptop product inside it. -/
def ops0 : List Op :=
  [Op.catCreate { nombre := "Electronics" } 0,
   Op.prodCreate { nombre := "Laptop", precio := 99999, stock := 5,
                   categoryId := 1 } 1]

/-- Witness for C1: after the concrete run `ops0`, the single active product
in the store references an active category. -/
theorem c1_reachable_referential_integrity_witness :
    ∃ c ∈ (execOps ops0).categories, c.id = 1 ∧ c.isActive = true := by
  have h := c1_reachable_referential_integrity ops0
  have hp : (⟨1, "Laptop", none, 99999, 5, none, true, 1, 1, 1⟩ : Product) ∈
      (execOps ops0).products := by
    decide
  exact h _ hp rfl

end NestTutorial
